import Mathlib

/-!
Verification of the tobac admission decision engine and its team directory
cache.  The definitions below are a shallow embedding of the Go sources:
`pkg/tobac/tobac.go` (the decision engine), `pkg/teams/teams.go` (the cache)
and `pkg/azure/azure.go` (team data and directory build).  Go strings are
modelled as Lean `String`, Go maps as association lists with zero-value
lookup, Go `nil` pointers as `Option`, and the fragment of `fmt.Sprintf`
exercised by the program (format strings whose only verb is `%s`) is
modelled character by character, including Go's `%!s(MISSING)` and
`%!(EXTRA type=value)` behaviour for argument-count mismatches.
-/

namespace fmt

/-- Rendering of surplus arguments, as Go prints them inside the
`%!(EXTRA ...)` marker: `string=value` entries separated by a comma and a
space.  All arguments in this program are strings. -/
def extraElems : List String → List Char
  | [] => []
  | [a] => "string=".data ++ a.data
  | a :: as => "string=".data ++ a.data ++ ", ".data ++ extraElems as

/-- Go appends `%!(EXTRA type=value, ...)` when `Sprintf` receives more
arguments than the format string consumes; nothing is appended when no
argument is left over. -/
def extraPart : List String → List Char
  | [] => []
  | a :: as => "%!(EXTRA ".data ++ extraElems (a :: as) ++ ")".data

/-- Character-level model of `fmt.Sprintf` restricted to format strings
whose only verb is `%s` (the fragment used by tobac's reason constants,
configuration templates and tests): each `%s` consumes the next argument,
a missing argument prints `%!s(MISSING)`, every other character is copied
verbatim, and leftover arguments append the `%!(EXTRA ...)` marker. -/
def sprintfChars : List Char → List String → List Char
  | [], args => extraPart args
  | '%' :: 's' :: rest, a :: as => a.data ++ sprintfChars rest as
  | '%' :: 's' :: rest, [] => "%!s(MISSING)".data ++ sprintfChars rest []
  | c :: rest, args => c :: sprintfChars rest args

/-- String-level wrapper for the `Sprintf` model. -/
def Sprintf (format : String) (args : List String) : String :=
  String.mk (sprintfChars format.data args)

/-- Number of `%s` substitution slots in a format string. -/
def slots : List Char → Nat
  | '%' :: 's' :: rest => slots rest + 1
  | _ :: rest => slots rest
  | [] => 0

/-- True when every `%` in the format string is immediately followed by
`s`, i.e. the format lies in the fragment `sprintfChars` models
faithfully. -/
def onlyStringVerbs : List Char → Bool
  | '%' :: 's' :: rest => onlyStringVerbs rest
  | '%' :: _ => false
  | _ :: rest => onlyStringVerbs rest
  | [] => true

/-- Definition following the words of the specification for the
service-account matching rule: the template with each `%s` substitution
slot replaced by the team's internal ID (for a template with exactly one
slot, "that template with its single substitution slot replaced by the
team's internal ID").  It is compared against the behaviour the source
actually has, namely `sprintfChars template [teamID, teamID]`. -/
def specTemplateSubst : List Char → String → List Char
  | '%' :: 's' :: rest, teamID => teamID.data ++ specTemplateSubst rest teamID
  | c :: rest, teamID => c :: specTemplateSubst rest teamID
  | [], _ => []

end fmt

namespace azure

/-- `azure.Team`: one directory-backed team (pkg/azure/azure.go). -/
structure Team where
  AzureUUID : String
  ID : String
  Title : String
  Description : String
deriving DecidableEq, Repr

/-- `Team.Valid`: true if the ID fields are non-empty (azure.go line 41). -/
def Team.Valid (team : Team) : Bool :=
  team.AzureUUID.length > 0 && team.ID.length > 0

/-- The Go zero value of `azure.Team`. -/
def zeroTeam : Team :=
  { AzureUUID := "", ID := "", Title := "", Description := "" }

/-- Association-list model of a Go `map[string]Team` assignment
`m[key] = value`: the new binding wins over any previous binding of the
same key; other bindings are unchanged. -/
def mapInsert (m : List (String × Team)) (key : String) (value : Team) :
    List (String × Team) :=
  (key, value) :: m.filter (fun p => !(p.fst == key))

/-- `azure.Teams` (azure.go lines 85-103) with the HTTP fetch made
explicit: given the outcome of `get` (the decoded entry list, or an
error), either propagate the error or build the team map, keeping only
valid teams and keying each by its own `ID` field. -/
def Teams (fetched : Except String (List Team)) :
    Except String (List (String × Team)) :=
  match fetched with
  | Except.error err => Except.error err
  | Except.ok list =>
      Except.ok (list.foldl
        (fun teams team => if team.Valid then mapInsert teams team.ID team else teams)
        [])

end azure

namespace teams

/-- `teams.Get` (teams.go lines 38-42) with the shared snapshot made an
explicit argument: a Go map read `teamList[id]` returns the stored team,
or the zero value when the key is absent (also when the map is still the
`nil` map of the cold start, modelled as the empty list). -/
def Get (teamList : List (String × azure.Team)) (id : String) : azure.Team :=
  match teamList.find? (fun p => p.fst == id) with
  | some p => p.snd
  | none => azure.zeroTeam

/-- One iteration of the `teams.Sync` loop body (teams.go lines 19-34) as
a step on the cached snapshot: a failed fetch leaves the snapshot
untouched (the `continue` branch), a successful fetch replaces it
wholesale. -/
def syncStep (teamList : List (String × azure.Team))
    (fetched : Except String (List (String × azure.Team))) :
    List (String × azure.Team) :=
  match fetched with
  | Except.error _ => teamList
  | Except.ok teams => teams

/-- The `teams.Sync` loop run over a finite sequence of fetch outcomes. -/
def syncRun (teamList : List (String × azure.Team))
    (fetches : List (Except String (List (String × azure.Team)))) :
    List (String × azure.Team) :=
  fetches.foldl syncStep teamList

end teams

namespace tobac

def ErrorNotTaggedWithTeamLabel : String :=
  "object is not tagged with a team label"

def ErrorTeamDoesNotExistInAzureAD : String :=
  "team \x27%s\x27 does not exist in Azure AD"

def ErrorExistingTeamDoesNotExistInAzureAD : String :=
  "team \x27%s\x27 on existing resource does not exist in Azure AD"

def ErrorUserHasNoAccessToTeam : String :=
  "user \x27%s\x27 has no access to team \x27%s\x27"

def SuccessUserIsClusterAdmin : String :=
  "user is cluster administrator through group \x27%s\x27"

def SuccessUserBelongsToTeam : String :=
  "user belongs to owner team \x27%s\x27"

def SuccessUserMatchesServiceUserTemplate : String :=
  "user matches service user template"

def SuccessUserMayAnnexateOrphanResource : String :=
  "resource did not have a team label set"

/-- The two fields of `authenticationv1.UserInfo` the engine reads. -/
structure UserInfo where
  Username : String
  Groups : List String
deriving DecidableEq, Repr

/-- A Kubernetes resource as seen by the engine: the engine only calls
`GetLabels()` on a `metav1.Object`, so the model keeps the label map
(an association list with unique keys). -/
structure KubernetesResource where
  Labels : List (String × String)
deriving DecidableEq, Repr

/-- `r.GetLabels()[key]`: Go map indexing with the zero value `""` for an
absent key. -/
def KubernetesResource.getLabel (r : KubernetesResource) (key : String) : String :=
  match r.Labels.find? (fun p => p.fst == key) with
  | some p => p.snd
  | none => ""

/-- `tobac.Request` (tobac.go lines 27-34); the `nil`-able resource
pointers become `Option`. -/
structure Request where
  UserInfo : UserInfo
  ExistingResource : Option KubernetesResource
  SubmittedResource : Option KubernetesResource
  ClusterAdmins : List String
  ServiceUserTemplates : List String
  TeamProvider : String → azure.Team

/-- `tobac.Response` (tobac.go lines 36-39). -/
structure Response where
  Allowed : Bool
  Reason : String
deriving DecidableEq, Repr

/-- `stringInSlice` (tobac.go lines 43-50). -/
def stringInSlice (slice : List String) (str : String) : Bool :=
  slice.any (fun s => str == s)

/-- `hasServiceUserAccess` (tobac.go lines 53-61): each template is
instantiated by `fmt.Sprintf(template, teamID, teamID)` — note the team
ID is passed twice — and compared for exact equality with the
username. -/
def hasServiceUserAccess (username teamID : String) (templates : List String) : Bool :=
  templates.any (fun template => username == fmt.Sprintf template [teamID, teamID])

/-- `ClusterAdminResponse` (tobac.go lines 63-73): the first
user-group/admin-group pair that matches (user groups outer loop, admin
groups inner loop) yields an allow naming the admin group; otherwise
`nil`. -/
def ClusterAdminResponse (request : Request) : Option Response :=
  request.UserInfo.Groups.findSome? (fun userGroup =>
    request.ClusterAdmins.findSome? (fun adminGroup =>
      if userGroup == adminGroup then
        some { Allowed := true,
               Reason := fmt.Sprintf SuccessUserIsClusterAdmin [adminGroup] }
      else none))

/-- Tail of `Allowed` from line 133 on: the final ownership check on the
submitted team (`team`/`teamID` are the values bound in the submitted
block, or Go zero values when there was no submitted resource;
`existingLabel` likewise). -/
def finalCheck (request : Request) (teamID : String) (team : azure.Team)
    (existingLabel : String) : Response :=
  if stringInSlice request.UserInfo.Groups team.AzureUUID then
    if request.ExistingResource.isSome && existingLabel.length == 0 then
      { Allowed := true, Reason := SuccessUserMayAnnexateOrphanResource }
    else
      { Allowed := true, Reason := fmt.Sprintf SuccessUserBelongsToTeam [team.ID] }
  else if hasServiceUserAccess request.UserInfo.Username team.ID
      request.ServiceUserTemplates then
    { Allowed := true, Reason := SuccessUserMatchesServiceUserTemplate }
  else
    { Allowed := false,
      Reason := fmt.Sprintf ErrorUserHasNoAccessToTeam
        [request.UserInfo.Username, teamID] }

/-- Middle of `Allowed`, lines 100-131: the existing-resource block
followed by the fall-through into the final check. -/
def existingCheck (request : Request) (teamID : String) (team : azure.Team) :
    Response :=
  match request.ExistingResource with
  | none => finalCheck request teamID team ""
  | some existing =>
    let existingLabel := existing.getLabel "team"
    if existingLabel.length > 0 then
      let existingTeam := request.TeamProvider existingLabel
      if !existingTeam.Valid then
        { Allowed := false,
          Reason := fmt.Sprintf ErrorExistingTeamDoesNotExistInAzureAD
            [existingLabel] }
      else
        let serviceUserAccess := hasServiceUserAccess request.UserInfo.Username
          existingTeam.ID request.ServiceUserTemplates
        if !stringInSlice request.UserInfo.Groups existingTeam.AzureUUID
            && !serviceUserAccess then
          { Allowed := false,
            Reason := fmt.Sprintf ErrorUserHasNoAccessToTeam
              [request.UserInfo.Username, existingTeam.ID] }
        else if request.SubmittedResource.isNone then
          if serviceUserAccess then
            { Allowed := true, Reason := SuccessUserMatchesServiceUserTemplate }
          else
            { Allowed := true,
              Reason := fmt.Sprintf SuccessUserBelongsToTeam [existingLabel] }
        else finalCheck request teamID team existingLabel
    else if request.SubmittedResource.isNone then
      { Allowed := true, Reason := SuccessUserMayAnnexateOrphanResource }
    else finalCheck request teamID team existingLabel

/-- `tobac.Allowed` (tobac.go lines 75-148): cluster-admin override,
then validation of the submitted resource's team label, then
`existingCheck`/`finalCheck` for the remaining rules. -/
def Allowed (request : Request) : Response :=
  match ClusterAdminResponse request with
  | some response => response
  | none =>
    match request.SubmittedResource with
    | some submitted =>
      let teamID := submitted.getLabel "team"
      if teamID.length == 0 then
        { Allowed := false, Reason := ErrorNotTaggedWithTeamLabel }
      else
        let team := request.TeamProvider teamID
        if !team.Valid then
          { Allowed := false,
            Reason := fmt.Sprintf ErrorTeamDoesNotExistInAzureAD [teamID] }
        else existingCheck request teamID team
    | none => existingCheck request "" azure.zeroTeam

end tobac

/-! Concrete instances used to exercise the definitions on closed inputs. -/

/-- A valid demo team with internal ID `teama`. -/
def demoTeamA : azure.Team :=
  { AzureUUID := "uuid-a", ID := "teama", Title := "Team A", Description := "" }

/-- A valid demo team with internal ID `teamb`. -/
def demoTeamB : azure.Team :=
  { AzureUUID := "uuid-b", ID := "teamb", Title := "Team B", Description := "" }

/-- A fetched entry that fails `Team.Valid` (empty `AzureUUID`). -/
def demoInvalidTeam : azure.Team :=
  { AzureUUID := "", ID := "orphanish", Title := "", Description := "" }

/-- A lookup function knowing exactly the two demo teams. -/
def demoProvider : String → azure.Team := fun s =>
  if s == "teama" then demoTeamA
  else if s == "teamb" then demoTeamB
  else azure.zeroTeam

/-- A resource labelled with team `teama`. -/
def demoExistingA : tobac.KubernetesResource := { Labels := [("team", "teama")] }

/-- A resource labelled with team `teamb`. -/
def demoSubmittedB : tobac.KubernetesResource := { Labels := [("team", "teamb")] }

/-- A resource with no labels at all. -/
def demoUnlabeled : tobac.KubernetesResource := { Labels := [] }

/-- A non-admin update request moving a resource from `teama` to `teamb`
by a user holding both directory groups. -/
def demoMoveRequest : tobac.Request :=
  { UserInfo := { Username := "alice", Groups := ["uuid-a", "uuid-b"] },
    ExistingResource := some demoExistingA,
    SubmittedResource := some demoSubmittedB,
    ClusterAdmins := ["cluster-admin"],
    ServiceUserTemplates := ["system:serviceaccounts:%s:serviceuser-%s"],
    TeamProvider := demoProvider }

/-- A non-admin request annexing an unlabeled existing resource. -/
def demoAnnexRequest : tobac.Request :=
  { UserInfo := { Username := "bob", Groups := ["uuid-b"] },
    ExistingResource := some demoUnlabeled,
    SubmittedResource := some demoSubmittedB,
    ClusterAdmins := ["cluster-admin"],
    ServiceUserTemplates := [],
    TeamProvider := demoProvider }

/-- A non-admin delete request for an existing resource with no team
label and no submitted resource. -/
def demoOrphanDeleteRequest : tobac.Request :=
  { UserInfo := { Username := "carol", Groups := [] },
    ExistingResource := some demoUnlabeled,
    SubmittedResource := none,
    ClusterAdmins := ["cluster-admin"],
    ServiceUserTemplates := [],
    TeamProvider := fun _ => azure.zeroTeam }

/-- A request with no submitted and no existing resource, from an
identity whose group list contains the empty string. -/
def demoEmptyRequest : tobac.Request :=
  { UserInfo := { Username := "dave", Groups := [""] },
    ExistingResource := none,
    SubmittedResource := none,
    ClusterAdmins := ["cluster-admin"],
    ServiceUserTemplates := [],
    TeamProvider := fun _ => azure.zeroTeam }

/-- A cluster-admin request with no resources attached. -/
def demoAdminRequest : tobac.Request :=
  { UserInfo := { Username := "eve", Groups := ["dev", "cluster-admin"] },
    ExistingResource := none,
    SubmittedResource := none,
    ClusterAdmins := ["cluster-admin"],
    ServiceUserTemplates := [],
    TeamProvider := fun _ => azure.zeroTeam }

/-! Helper lemmas. -/

theorem stringInSlice_eq_true_iff (slice : List String) (str : String) :
    tobac.stringInSlice slice str = true ↔ str ∈ slice := by
  simp only [tobac.stringInSlice, List.any_eq_true, beq_iff_eq]
  constructor
  · rintro ⟨x, hx, rfl⟩; exact hx
  · intro h; exact ⟨str, h, rfl⟩

theorem adminScan_eq_none_iff (admins : List String) (u : String) :
    (admins.findSome? (fun adminGroup =>
      if u == adminGroup then
        some { Allowed := true,
               Reason := fmt.Sprintf tobac.SuccessUserIsClusterAdmin [adminGroup] }
      else (none : Option tobac.Response))) = none ↔ u ∉ admins := by
  induction admins with
  | nil => simp
  | cons a as ih =>
    rw [List.findSome?_cons]
    rcases eq_or_ne u a with h | h
    · subst h
      simp only [beq_self_eq_true, if_true]
      constructor
      · intro hfalse; exact absurd hfalse (by simp)
      · intro hmem; exact absurd (List.mem_cons_self _ _) hmem
    · have hb : (u == a) = false := beq_eq_false_iff_ne.mpr h
      simp only [hb, Bool.false_eq_true, if_false]
      rw [ih]
      constructor
      · intro hnotas hmem
        rcases List.mem_cons.mp hmem with he | hm
        · exact h he
        · exact hnotas hm
      · intro hnot hm; exact hnot (List.mem_cons_of_mem _ hm)

theorem adminScan_eq_some (admins : List String) (u : String) (r : tobac.Response) :
    (admins.findSome? (fun adminGroup =>
      if u == adminGroup then
        some { Allowed := true,
               Reason := fmt.Sprintf tobac.SuccessUserIsClusterAdmin [adminGroup] }
      else (none : Option tobac.Response))) = some r →
    u ∈ admins ∧
      r = { Allowed := true,
            Reason := fmt.Sprintf tobac.SuccessUserIsClusterAdmin [u] } := by
  induction admins with
  | nil => simp
  | cons a as ih =>
    rw [List.findSome?_cons]
    rcases eq_or_ne u a with h | h
    · subst h
      simp only [beq_self_eq_true, if_true, Option.some.injEq]
      intro hr
      exact ⟨List.mem_cons_self _ _, hr.symm⟩
    · have hb : (u == a) = false := beq_eq_false_iff_ne.mpr h
      simp only [hb, Bool.false_eq_true, if_false]
      intro hr
      obtain ⟨h1, h2⟩ := ih hr
      exact ⟨List.mem_cons_of_mem _ h1, h2⟩

theorem groupScan_eq_none_iff (groups admins : List String) :
    (groups.findSome? (fun userGroup =>
      admins.findSome? (fun adminGroup =>
        if userGroup == adminGroup then
          some { Allowed := true,
                 Reason := fmt.Sprintf tobac.SuccessUserIsClusterAdmin [adminGroup] }
        else (none : Option tobac.Response)))) = none ↔
    ∀ g ∈ groups, g ∉ admins := by
  induction groups with
  | nil => simp
  | cons g gs ih =>
    rw [List.findSome?_cons]
    cases hsc : admins.findSome? (fun adminGroup =>
      if g == adminGroup then
        some { Allowed := true,
               Reason := fmt.Sprintf tobac.SuccessUserIsClusterAdmin [adminGroup] }
      else (none : Option tobac.Response)) with
    | none =>
      have hg : g ∉ admins := (adminScan_eq_none_iff admins g).mp hsc
      rw [ih]
      constructor
      · intro hall g' hmem
        rcases List.mem_cons.mp hmem with he | hm
        · subst he; exact hg
        · exact hall g' hm
      · intro hall g' hm; exact hall g' (List.mem_cons_of_mem _ hm)
    | some r0 =>
      obtain ⟨hmem, _⟩ := adminScan_eq_some admins g r0 hsc
      constructor
      · intro hfalse; exact absurd hfalse (by simp)
      · intro hall; exact absurd hmem (hall g (List.mem_cons_self _ _))

theorem groupScan_eq_some (groups admins : List String) (r : tobac.Response) :
    (groups.findSome? (fun userGroup =>
      admins.findSome? (fun adminGroup =>
        if userGroup == adminGroup then
          some { Allowed := true,
                 Reason := fmt.Sprintf tobac.SuccessUserIsClusterAdmin [adminGroup] }
        else (none : Option tobac.Response)))) = some r →
    ∃ a, a ∈ admins ∧ a ∈ groups ∧
      r = { Allowed := true,
            Reason := fmt.Sprintf tobac.SuccessUserIsClusterAdmin [a] } := by
  induction groups with
  | nil => simp
  | cons g gs ih =>
    rw [List.findSome?_cons]
    cases hsc : admins.findSome? (fun adminGroup =>
      if g == adminGroup then
        some { Allowed := true,
               Reason := fmt.Sprintf tobac.SuccessUserIsClusterAdmin [adminGroup] }
      else (none : Option tobac.Response)) with
    | none =>
      intro hr
      obtain ⟨a, h1, h2, h3⟩ := ih hr
      exact ⟨a, h1, List.mem_cons_of_mem _ h2, h3⟩
    | some r0 =>
      intro hr
      simp only [Option.some.injEq] at hr
      obtain ⟨hmem, hre⟩ := adminScan_eq_some admins g r0 hsc
      exact ⟨g, hmem, List.mem_cons_self _ _, hr ▸ hre⟩

theorem clusterAdminResponse_eq_none_iff (request : tobac.Request) :
    tobac.ClusterAdminResponse request = none ↔
      ∀ g ∈ request.UserInfo.Groups, g ∉ request.ClusterAdmins :=
  groupScan_eq_none_iff request.UserInfo.Groups request.ClusterAdmins

theorem clusterAdminResponse_eq_some_spec (request : tobac.Request) (r : tobac.Response) :
    tobac.ClusterAdminResponse request = some r →
    ∃ a, a ∈ request.ClusterAdmins ∧ a ∈ request.UserInfo.Groups ∧
      r = { Allowed := true,
            Reason := fmt.Sprintf tobac.SuccessUserIsClusterAdmin [a] } :=
  groupScan_eq_some request.UserInfo.Groups request.ClusterAdmins r

/-- C1: Admin override is unconditional.  For every request whose
identity's group list intersects the configured cluster-admin group list,
`Allowed` returns a response with `Allowed = true` whose reason names a
matching admin group, regardless of the resource views, their labels, and
the team-lookup function (the request is universally quantified, so both
views may be absent, unlabeled, or arbitrary). -/
theorem admin_override_unconditional (request : tobac.Request) (g : String)
    (hg : g ∈ request.UserInfo.Groups) (ha : g ∈ request.ClusterAdmins) :
    (tobac.Allowed request).Allowed = true ∧
    ∃ a, a ∈ request.ClusterAdmins ∧ a ∈ request.UserInfo.Groups ∧
      (tobac.Allowed request).Reason =
        fmt.Sprintf tobac.SuccessUserIsClusterAdmin [a] := by
  have hne : tobac.ClusterAdminResponse request ≠ none := by
    rw [Ne, clusterAdminResponse_eq_none_iff]
    intro h
    exact h g hg ha
  obtain ⟨r, hr⟩ := Option.ne_none_iff_exists'.mp hne
  obtain ⟨a, haa, hag, hre⟩ := clusterAdminResponse_eq_some_spec request r hr
  have hall : tobac.Allowed request = r := by
    unfold tobac.Allowed
    rw [hr]
  rw [hall, hre]
  exact ⟨rfl, a, haa, hag, rfl⟩

/-- Witness for C1 at a concrete admin request carrying no resources. -/
theorem admin_override_unconditional_witness :
    (tobac.Allowed demoAdminRequest).Allowed = true ∧
    ∃ a, a ∈ demoAdminRequest.ClusterAdmins ∧
      a ∈ demoAdminRequest.UserInfo.Groups ∧
      (tobac.Allowed demoAdminRequest).Reason =
        fmt.Sprintf tobac.SuccessUserIsClusterAdmin [a] :=
  admin_override_unconditional demoAdminRequest "cluster-admin"
    (by simp [demoAdminRequest]) (by simp [demoAdminRequest])

/-- C8: Determinism of the engine.  Two requests that agree structurally
on identity, resource views, admin list and templates, and whose
team-lookup functions agree pointwise, get structurally identical
responses: same `Allowed` flag and same `Reason` string. -/
theorem allowed_deterministic (r1 r2 : tobac.Request)
    (hu : r1.UserInfo = r2.UserInfo)
    (hex : r1.ExistingResource = r2.ExistingResource)
    (hsub : r1.SubmittedResource = r2.SubmittedResource)
    (hadm : r1.ClusterAdmins = r2.ClusterAdmins)
    (htpl : r1.ServiceUserTemplates = r2.ServiceUserTemplates)
    (htp : ∀ s, r1.TeamProvider s = r2.TeamProvider s) :
    tobac.Allowed r1 = tobac.Allowed r2 ∧
    (tobac.Allowed r1).Allowed = (tobac.Allowed r2).Allowed ∧
    (tobac.Allowed r1).Reason = (tobac.Allowed r2).Reason := by
  have hreq : r1 = r2 := by
    cases r1
    cases r2
    congr
    exact funext htp
  subst hreq
  exact ⟨rfl, rfl, rfl⟩

/-- Witness for C8 at a concrete pair of structurally equal requests. -/
theorem allowed_deterministic_witness :
    tobac.Allowed demoMoveRequest = tobac.Allowed demoMoveRequest ∧
    (tobac.Allowed demoMoveRequest).Allowed =
      (tobac.Allowed demoMoveRequest).Allowed ∧
    (tobac.Allowed demoMoveRequest).Reason =
      (tobac.Allowed demoMoveRequest).Reason :=
  allowed_deterministic demoMoveRequest demoMoveRequest rfl rfl rfl rfl rfl
    (fun _ => rfl)

/-- Any run of the sync loop consisting only of failed fetches leaves the
snapshot exactly unchanged. -/
theorem syncRun_errors (errs : List String)
    (s : List (String × azure.Team)) :
    teams.syncRun s (errs.map Except.error) = s := by
  induction errs with
  | nil => rfl
  | cons e es ih => simpa [teams.syncRun, List.foldl_cons, teams.syncStep] using ih

/-- A failed-fetch step is the identity on the snapshot. -/
theorem syncStep_error (s : List (String × azure.Team)) (e : String) :
    teams.syncStep s (Except.error e) = s := rfl

/-- C6: Failed refresh leaves the snapshot untouched.  A sync-loop step
whose fetch errors leaves the cached map exactly unchanged, `Get`
returns the pre-failure snapshot's values after the failure, and the
state after any sequence of consecutive failed refreshes (in particular
after `n` equal failures) equals the state after one failed refresh. -/
theorem failed_refresh_keeps_snapshot (s : List (String × azure.Team))
    (e : String) (id : String) (n : Nat) (errs : List String) :
    teams.syncStep s (Except.error e) = s ∧
    teams.Get (teams.syncStep s (Except.error e)) id = teams.Get s id ∧
    teams.syncRun s (errs.map Except.error) = s ∧
    teams.syncRun s (List.replicate n (Except.error e)) =
      teams.syncRun s [Except.error e] := by
  refine ⟨rfl, rfl, syncRun_errors errs s, ?_⟩
  have h1 : teams.syncRun s [Except.error e] = s := rfl
  have h2 : List.replicate n (Except.error e) =
      (List.replicate n e).map
        (Except.error : String → Except String (List (String × azure.Team))) := by
    simp [List.map_replicate]
  rw [h1, h2, syncRun_errors]

/-- C7: Cache lookup is total with zero-value default.  The zero team is
invalid, the never-populated (cold-start) snapshot yields the zero team
for every key, an absent key yields the zero team, and a present key
yields exactly the entry stored under it. -/
theorem get_total_zero_default (m : List (String × azure.Team)) (id : String) :
    azure.Team.Valid azure.zeroTeam = false ∧
    teams.Get [] id = azure.zeroTeam ∧
    (m.find? (fun p => p.fst == id) = none → teams.Get m id = azure.zeroTeam) ∧
    (∀ p, m.find? (fun p => p.fst == id) = some p →
      teams.Get m id = p.snd ∧ p ∈ m ∧ p.fst = id) := by
  refine ⟨rfl, rfl, ?_, ?_⟩
  · intro hnone
    unfold teams.Get
    rw [hnone]
  · intro p hp
    refine ⟨?_, List.mem_of_find?_eq_some hp, ?_⟩
    · unfold teams.Get
      rw [hp]
    · have := List.find?_some hp
      exact beq_iff_eq.mp this

/-- Witness for C7: lookup of an absent key and of a present key in a
concrete one-entry snapshot. -/
theorem get_total_zero_default_witness :
    teams.Get [("teama", demoTeamA)] "absent" = azure.zeroTeam ∧
    teams.Get [("teama", demoTeamA)] "teama" = demoTeamA := by
  refine ⟨?_, ?_⟩
  · exact (get_total_zero_default [("teama", demoTeamA)] "absent").2.2.1 rfl
  · exact ((get_total_zero_default [("teama", demoTeamA)] "teama").2.2.2
      ("teama", demoTeamA) rfl).1

/-- Every entry produced by the directory-build fold is a valid team
keyed by its own `ID` field, provided the accumulator already satisfies
that invariant. -/
theorem teamsFold_invariant (l : List azure.Team)
    (acc : List (String × azure.Team))
    (hacc : ∀ p ∈ acc, p.snd.Valid = true ∧ p.fst = p.snd.ID) :
    ∀ p ∈ l.foldl
      (fun teams team =>
        if team.Valid then azure.mapInsert teams team.ID team else teams)
      acc,
      p.snd.Valid = true ∧ p.fst = p.snd.ID := by
  induction l generalizing acc with
  | nil => exact hacc
  | cons t ts ih =>
    rw [List.foldl_cons]
    refine ih _ ?_
    cases hv : t.Valid with
    | false => simpa [hv] using hacc
    | true =>
      simp only [hv, if_true]
      intro q hq
      rcases List.mem_cons.mp hq with he | hm
      · subst he; exact ⟨hv, rfl⟩
      · exact hacc q (List.mem_of_mem_filter hm)

/-- C10: Directory-build invariant.  For every fetched team list, the
map built by `Teams` contains only valid teams, each keyed by its own
`ID` field; consequently every team reachable through the cache's `Get`
on such a snapshot is either the zero-value invalid team or a valid team
whose lookup key equals its `ID`. -/
theorem directory_build_invariant (l : List azure.Team)
    (m : List (String × azure.Team))
    (hm : azure.Teams (Except.ok l) = Except.ok m) :
    (∀ p ∈ m, p.snd.Valid = true ∧ p.fst = p.snd.ID) ∧
    (∀ id, teams.Get m id = azure.zeroTeam ∨
      ((teams.Get m id).Valid = true ∧ id = (teams.Get m id).ID)) := by
  simp only [azure.Teams, Except.ok.injEq] at hm
  have hinv : ∀ p ∈ m, p.snd.Valid = true ∧ p.fst = p.snd.ID := by
    rw [← hm]
    exact teamsFold_invariant l [] (by simp)
  refine ⟨hinv, ?_⟩
  intro id
  unfold teams.Get
  cases hfind : m.find? (fun p => p.fst == id) with
  | none => exact Or.inl rfl
  | some p =>
    right
    obtain ⟨hv, hid⟩ := hinv p (List.mem_of_find?_eq_some hfind)
    have hbeq : (p.fst == id) = true := by simpa using List.find?_some hfind
    have hkey : p.fst = id := beq_iff_eq.mp hbeq
    exact ⟨hv, by rw [← hkey, hid]⟩

/-- Witness for C10: a concrete fetch containing one valid and one
invalid entry builds a one-entry map, and a lookup through it lands in
the stated disjunction. -/
theorem directory_build_invariant_witness :
    teams.Get [("teama", demoTeamA)] "teama" = azure.zeroTeam ∨
    ((teams.Get [("teama", demoTeamA)] "teama").Valid = true ∧
      "teama" = (teams.Get [("teama", demoTeamA)] "teama").ID) :=
  (directory_build_invariant [demoTeamA, demoInvalidTeam]
    [("teama", demoTeamA)] rfl).2 "teama"

/-- C4 counterexample: at a concrete non-admin request whose existing
view has no team label and which has no submitted view, `Allowed`
returns the terminal allow with the annexation reason ("resource did not
have a team label set") — the annexation allow does fire without a
submitted view, instead of control falling through to the remaining
rules. -/
theorem orphan_delete_counterexample :
    tobac.ClusterAdminResponse demoOrphanDeleteRequest = none ∧
    demoOrphanDeleteRequest.SubmittedResource = none ∧
    (demoOrphanDeleteRequest.ExistingResource.map
      (fun r => r.getLabel "team")) = some "" ∧
    tobac.Allowed demoOrphanDeleteRequest =
      { Allowed := true, Reason := tobac.SuccessUserMayAnnexateOrphanResource } :=
  ⟨rfl, rfl, rfl, rfl⟩

/-- C4 (amended): for every non-admin request where an existing view is
present with an empty team label and no submitted view is present, the
terminal allow with the annexation reason fires nonetheless: `Allowed`
returns `Allowed = true` with reason "resource did not have a team label
set". -/
theorem orphan_delete_allows (request : tobac.Request)
    (existing : tobac.KubernetesResource)
    (hadmin : ∀ g ∈ request.UserInfo.Groups, g ∉ request.ClusterAdmins)
    (hex : request.ExistingResource = some existing)
    (hsub : request.SubmittedResource = none)
    (hlbl : (existing.getLabel "team").length = 0) :
    tobac.Allowed request =
      { Allowed := true, Reason := tobac.SuccessUserMayAnnexateOrphanResource } := by
  have hnone : tobac.ClusterAdminResponse request = none :=
    (clusterAdminResponse_eq_none_iff request).mpr hadmin
  simp only [tobac.Allowed, hnone, hsub, tobac.existingCheck, hex, hlbl,
    Option.isNone_none, lt_irrefl, if_false, if_true]

/-- Witness for the amended C4 at the concrete orphan-delete request. -/
theorem orphan_delete_allows_witness :
    tobac.Allowed demoOrphanDeleteRequest =
      { Allowed := true, Reason := tobac.SuccessUserMayAnnexateOrphanResource } :=
  orphan_delete_allows demoOrphanDeleteRequest demoUnlabeled
    (by simp [demoOrphanDeleteRequest]) rfl rfl rfl

/-- C2: Symmetry of ownership checks on a team move.  For every non-admin
update request whose existing view carries a non-empty label resolving to
a valid team A, whose submitted view carries a non-empty label resolving
to a valid team B, and whose username matches no service-account template
for A or for B, `Allowed` allows if and only if the identity's groups
contain both A's directory group and B's directory group; holding only
one of the two denies. -/
theorem team_move_requires_both_memberships (request : tobac.Request)
    (submitted existing : tobac.KubernetesResource)
    (hadmin : ∀ g ∈ request.UserInfo.Groups, g ∉ request.ClusterAdmins)
    (hsub : request.SubmittedResource = some submitted)
    (hex : request.ExistingResource = some existing)
    (hBlen : (submitted.getLabel "team").length ≠ 0)
    (hAlen : (existing.getLabel "team").length ≠ 0)
    (hAvalid : (request.TeamProvider (existing.getLabel "team")).Valid = true)
    (hBvalid : (request.TeamProvider (submitted.getLabel "team")).Valid = true)
    (hsvcA : tobac.hasServiceUserAccess request.UserInfo.Username
      (request.TeamProvider (existing.getLabel "team")).ID
      request.ServiceUserTemplates = false)
    (hsvcB : tobac.hasServiceUserAccess request.UserInfo.Username
      (request.TeamProvider (submitted.getLabel "team")).ID
      request.ServiceUserTemplates = false) :
    ((tobac.Allowed request).Allowed = true ↔
      ((request.TeamProvider (existing.getLabel "team")).AzureUUID
          ∈ request.UserInfo.Groups ∧
        (request.TeamProvider (submitted.getLabel "team")).AzureUUID
          ∈ request.UserInfo.Groups)) ∧
    (((request.TeamProvider (existing.getLabel "team")).AzureUUID
          ∈ request.UserInfo.Groups ∧
        (request.TeamProvider (submitted.getLabel "team")).AzureUUID
          ∉ request.UserInfo.Groups) →
      (tobac.Allowed request).Allowed = false) ∧
    (((request.TeamProvider (existing.getLabel "team")).AzureUUID
          ∉ request.UserInfo.Groups ∧
        (request.TeamProvider (submitted.getLabel "team")).AzureUUID
          ∈ request.UserInfo.Groups) →
      (tobac.Allowed request).Allowed = false) := by
  have hnone : tobac.ClusterAdminResponse request = none :=
    (clusterAdminResponse_eq_none_iff request).mpr hadmin
  have hb0 : ((submitted.getLabel "team").length == 0) = false :=
    beq_eq_false_iff_ne.mpr hBlen
  have ha0 : 0 < (existing.getLabel "team").length :=
    Nat.pos_of_ne_zero hAlen
  have hiff : (tobac.Allowed request).Allowed = true ↔
      ((request.TeamProvider (existing.getLabel "team")).AzureUUID
          ∈ request.UserInfo.Groups ∧
        (request.TeamProvider (submitted.getLabel "team")).AzureUUID
          ∈ request.UserInfo.Groups) := by
    simp only [tobac.Allowed, hnone, hsub, hb0, Bool.false_eq_true, if_false,
      hBvalid, Bool.not_true, tobac.existingCheck, hex, ha0, if_true,
      hAvalid, hsvcA, Bool.not_false, Bool.and_true, Option.isNone_some,
      tobac.finalCheck]
    cases hA : tobac.stringInSlice request.UserInfo.Groups
        (request.TeamProvider (existing.getLabel "team")).AzureUUID with
    | false =>
      have hAmem : (request.TeamProvider (existing.getLabel "team")).AzureUUID
          ∉ request.UserInfo.Groups := by
        rw [← stringInSlice_eq_true_iff]
        simp [hA]
      simp [hA, hAmem]
    | true =>
      have hAmem : (request.TeamProvider (existing.getLabel "team")).AzureUUID
          ∈ request.UserInfo.Groups :=
        (stringInSlice_eq_true_iff _ _).mp hA
      cases hB : tobac.stringInSlice request.UserInfo.Groups
          (request.TeamProvider (submitted.getLabel "team")).AzureUUID with
      | false =>
        have hBmem : (request.TeamProvider (submitted.getLabel "team")).AzureUUID
            ∉ request.UserInfo.Groups := by
          rw [← stringInSlice_eq_true_iff]
          simp [hB]
        simp [hA, hB, hsvcB, hAmem, hBmem, hex]
      | true =>
        have hBmem : (request.TeamProvider (submitted.getLabel "team")).AzureUUID
            ∈ request.UserInfo.Groups :=
          (stringInSlice_eq_true_iff _ _).mp hB
        simp [hA, hB, hAmem, hBmem, hex, hb0, hAlen]
  refine ⟨hiff, ?_, ?_⟩
  · rintro ⟨h1, h2⟩
    cases hval : (tobac.Allowed request).Allowed with
    | false => rfl
    | true => exact absurd (hiff.mp hval).2 h2
  · rintro ⟨h1, h2⟩
    cases hval : (tobac.Allowed request).Allowed with
    | false => rfl
    | true => exact absurd (hiff.mp hval).1 h1

/-- Witness for C2: the concrete move of a resource from `teama` to
`teamb` by a user holding both directory groups is allowed. -/
theorem team_move_requires_both_memberships_witness :
    (tobac.Allowed demoMoveRequest).Allowed = true :=
  (team_move_requires_both_memberships demoMoveRequest demoSubmittedB
    demoExistingA (by decide) rfl rfl (by decide) (by decide) (by decide)
    (by decide) (by decide) (by decide)).1.mpr (by decide)

/-- C5: Orphan annexation never blocks.  For every non-admin request with
a submitted view whose non-empty team label resolves to a valid team T
and an existing view whose team label is empty, the verdict is exactly
the final ownership check on T: allowed iff the identity's groups contain
T's directory group or the username matches a service-account template
for T; the membership case yields the annexation reason, the template
case the template reason, and otherwise the request is denied. -/
theorem orphan_annexation_final_gate (request : tobac.Request)
    (submitted existing : tobac.KubernetesResource)
    (hadmin : ∀ g ∈ request.UserInfo.Groups, g ∉ request.ClusterAdmins)
    (hsub : request.SubmittedResource = some submitted)
    (hex : request.ExistingResource = some existing)
    (hTlen : (submitted.getLabel "team").length ≠ 0)
    (hTvalid : (request.TeamProvider (submitted.getLabel "team")).Valid = true)
    (hexEmpty : (existing.getLabel "team").length = 0) :
    ((tobac.Allowed request).Allowed = true ↔
      ((request.TeamProvider (submitted.getLabel "team")).AzureUUID
          ∈ request.UserInfo.Groups ∨
        tobac.hasServiceUserAccess request.UserInfo.Username
          (request.TeamProvider (submitted.getLabel "team")).ID
          request.ServiceUserTemplates = true)) ∧
    ((request.TeamProvider (submitted.getLabel "team")).AzureUUID
        ∈ request.UserInfo.Groups →
      tobac.Allowed request =
        { Allowed := true, Reason := tobac.SuccessUserMayAnnexateOrphanResource }) ∧
    ((request.TeamProvider (submitted.getLabel "team")).AzureUUID
        ∉ request.UserInfo.Groups →
      tobac.hasServiceUserAccess request.UserInfo.Username
        (request.TeamProvider (submitted.getLabel "team")).ID
        request.ServiceUserTemplates = true →
      tobac.Allowed request =
        { Allowed := true, Reason := tobac.SuccessUserMatchesServiceUserTemplate }) ∧
    ((request.TeamProvider (submitted.getLabel "team")).AzureUUID
        ∉ request.UserInfo.Groups →
      tobac.hasServiceUserAccess request.UserInfo.Username
        (request.TeamProvider (submitted.getLabel "team")).ID
        request.ServiceUserTemplates = false →
      tobac.Allowed request =
        { Allowed := false,
          Reason := fmt.Sprintf tobac.ErrorUserHasNoAccessToTeam
            [request.UserInfo.Username, submitted.getLabel "team"] }) := by
  have hnone : tobac.ClusterAdminResponse request = none :=
    (clusterAdminResponse_eq_none_iff request).mpr hadmin
  have hb0 : ((submitted.getLabel "team").length == 0) = false :=
    beq_eq_false_iff_ne.mpr hTlen
  have hred : tobac.Allowed request =
      tobac.finalCheck request (submitted.getLabel "team")
        (request.TeamProvider (submitted.getLabel "team"))
        (existing.getLabel "team") := by
    simp only [tobac.Allowed, hnone, hsub, hb0, Bool.false_eq_true, if_false,
      hTvalid, Bool.not_true, tobac.existingCheck, hex, hexEmpty,
      lt_irrefl, if_true, Option.isNone_some, ite_false]
  have he0 : ((existing.getLabel "team").length == 0) = true := by
    simp [hexEmpty]
  cases hT : tobac.stringInSlice request.UserInfo.Groups
      (request.TeamProvider (submitted.getLabel "team")).AzureUUID with
  | true =>
    have hTmem : (request.TeamProvider (submitted.getLabel "team")).AzureUUID
        ∈ request.UserInfo.Groups :=
      (stringInSlice_eq_true_iff _ _).mp hT
    have hres : tobac.Allowed request =
        { Allowed := true, Reason := tobac.SuccessUserMayAnnexateOrphanResource } := by
      rw [hred]
      simp only [tobac.finalCheck, hT, if_true, hex, Option.isSome_some,
        he0, Bool.and_self]
    refine ⟨?_, fun _ => hres, ?_, ?_⟩
    · rw [hres]
      simp [hTmem]
    · intro hcontra _; exact absurd hTmem hcontra
    · intro hcontra _; exact absurd hTmem hcontra
  | false =>
    have hTmem : (request.TeamProvider (submitted.getLabel "team")).AzureUUID
        ∉ request.UserInfo.Groups := by
      rw [← stringInSlice_eq_true_iff]
      simp [hT]
    cases hsvc : tobac.hasServiceUserAccess request.UserInfo.Username
        (request.TeamProvider (submitted.getLabel "team")).ID
        request.ServiceUserTemplates with
    | true =>
      have hres : tobac.Allowed request =
          { Allowed := true,
            Reason := tobac.SuccessUserMatchesServiceUserTemplate } := by
        rw [hred]
        simp only [tobac.finalCheck, hT, Bool.false_eq_true, if_false, hsvc,
          if_true]
      refine ⟨?_, ?_, fun _ _ => hres, ?_⟩
      · rw [hres]; simp
      · intro hmem; exact absurd hmem hTmem
      · intro _ hfalse; exact absurd hfalse (by simp)
    | false =>
      have hres : tobac.Allowed request =
          { Allowed := false,
            Reason := fmt.Sprintf tobac.ErrorUserHasNoAccessToTeam
              [request.UserInfo.Username, submitted.getLabel "team"] } := by
        rw [hred]
        simp only [tobac.finalCheck, hT, Bool.false_eq_true, if_false, hsvc]
      refine ⟨?_, ?_, ?_, fun _ _ => hres⟩
      · rw [hres]
        simp [hTmem]
      · intro hmem; exact absurd hmem hTmem
      · intro _ hfalse; exact absurd hfalse (by simp)

/-- Witness for C5: annexing an unlabeled resource with a valid submitted
team by a member of that team is allowed with the annexation reason. -/
theorem orphan_annexation_final_gate_witness :
    tobac.Allowed demoAnnexRequest =
      { Allowed := true, Reason := tobac.SuccessUserMayAnnexateOrphanResource } :=
  (orphan_annexation_final_gate demoAnnexRequest demoSubmittedB demoUnlabeled
    (by decide) rfl rfl (by decide) (by decide) (by decide)).2.1 (by decide)

/-- C9: Empty-request edge case.  For every non-admin request with no
submitted view and no existing view, `Allowed` still evaluates the final
ownership check against the zero-value team: it allows with reason
"user belongs to owner team ''" when the identity's group list contains
the empty string, allows via a service-account template instantiated
with the empty team ID otherwise, and else denies with the no-access
reason naming an empty team ID. -/
theorem empty_request_checks_zero_team (request : tobac.Request)
    (hadmin : ∀ g ∈ request.UserInfo.Groups, g ∉ request.ClusterAdmins)
    (hsub : request.SubmittedResource = none)
    (hex : request.ExistingResource = none) :
    (("" ∈ request.UserInfo.Groups) →
      tobac.Allowed request =
        { Allowed := true, Reason := "user belongs to owner team \x27\x27" }) ∧
    (("" ∉ request.UserInfo.Groups) →
      tobac.hasServiceUserAccess request.UserInfo.Username ""
        request.ServiceUserTemplates = true →
      tobac.Allowed request =
        { Allowed := true, Reason := tobac.SuccessUserMatchesServiceUserTemplate }) ∧
    (("" ∉ request.UserInfo.Groups) →
      tobac.hasServiceUserAccess request.UserInfo.Username ""
        request.ServiceUserTemplates = false →
      tobac.Allowed request =
        { Allowed := false,
          Reason := fmt.Sprintf tobac.ErrorUserHasNoAccessToTeam
            [request.UserInfo.Username, ""] }) := by
  have hnone : tobac.ClusterAdminResponse request = none :=
    (clusterAdminResponse_eq_none_iff request).mpr hadmin
  have hred : tobac.Allowed request =
      tobac.finalCheck request "" azure.zeroTeam "" := by
    simp only [tobac.Allowed, hnone, hsub, tobac.existingCheck, hex]
  have hreason : fmt.Sprintf tobac.SuccessUserBelongsToTeam [azure.zeroTeam.ID] =
      "user belongs to owner team \x27\x27" := by decide
  refine ⟨?_, ?_, ?_⟩
  · intro hmem
    have hmem' : tobac.stringInSlice request.UserInfo.Groups
        azure.zeroTeam.AzureUUID = true :=
      (stringInSlice_eq_true_iff _ _).mpr hmem
    rw [hred]
    simp only [tobac.finalCheck, hmem', if_true, hex, Option.isSome_none,
      Bool.false_and, Bool.false_eq_true, if_false, hreason]
  · intro hmem hsvc
    have hmem' : tobac.stringInSlice request.UserInfo.Groups
        azure.zeroTeam.AzureUUID = false := by
      cases hs : tobac.stringInSlice request.UserInfo.Groups
          azure.zeroTeam.AzureUUID with
      | false => rfl
      | true => exact absurd ((stringInSlice_eq_true_iff _ _).mp hs) hmem
    rw [hred]
    have hsvc' : tobac.hasServiceUserAccess request.UserInfo.Username
        azure.zeroTeam.ID request.ServiceUserTemplates = true := hsvc
    simp only [tobac.finalCheck, hmem', Bool.false_eq_true, if_false, hsvc',
      if_true]
  · intro hmem hsvc
    have hmem' : tobac.stringInSlice request.UserInfo.Groups
        azure.zeroTeam.AzureUUID = false := by
      cases hs : tobac.stringInSlice request.UserInfo.Groups
          azure.zeroTeam.AzureUUID with
      | false => rfl
      | true => exact absurd ((stringInSlice_eq_true_iff _ _).mp hs) hmem
    rw [hred]
    have hsvc' : tobac.hasServiceUserAccess request.UserInfo.Username
        azure.zeroTeam.ID request.ServiceUserTemplates = false := hsvc
    simp only [tobac.finalCheck, hmem', Bool.false_eq_true, if_false, hsvc']

/-- Witness for C9: the concrete resourceless request whose identity's
group list contains the empty string is allowed with the zero-team
membership reason. -/
theorem empty_request_checks_zero_team_witness :
    tobac.Allowed demoEmptyRequest =
      { Allowed := true, Reason := "user belongs to owner team \x27\x27" } :=
  (empty_request_checks_zero_team demoEmptyRequest (by decide) rfl rfl).1
    (by decide)

/-- A format string with no `%s` slot is copied verbatim by the `Sprintf`
model; all arguments end up in the `%!(EXTRA ...)` marker. -/
theorem sprintfChars_no_slot (f : List Char) :
    ∀ (args : List String), fmt.slots f = 0 →
      fmt.sprintfChars f args = f ++ fmt.extraPart args := by
  induction f using fmt.slots.induct with
  | case1 rest ih =>
    intro args h
    rw [fmt.slots.eq_1] at h
    exact absurd h (by omega)
  | case2 head rest hcond ih =>
    intro args h
    rw [fmt.slots.eq_2 head rest hcond] at h
    rw [fmt.sprintfChars.eq_4 args head rest
      (fun rest1 a as hc hr _ => hcond rest1 hc hr)
      (fun rest1 hc hr _ => hcond rest1 hc hr)]
    rw [ih args h, List.cons_append]
  | case3 =>
    intro args h
    rw [fmt.sprintfChars.eq_1, List.nil_append]

/-- A format string with no `%s` slot is left unchanged by the
spec-side substitution. -/
theorem specTemplateSubst_no_slot (f : List Char) (a : String) :
    fmt.slots f = 0 → fmt.specTemplateSubst f a = f := by
  induction f using fmt.slots.induct with
  | case1 rest ih =>
    intro h
    rw [fmt.slots.eq_1] at h
    exact absurd h (by omega)
  | case2 head rest hcond ih =>
    intro h
    rw [fmt.slots.eq_2 head rest hcond] at h
    rw [fmt.specTemplateSubst.eq_2 a head rest hcond, ih h]
  | case3 =>
    intro h
    rw [fmt.specTemplateSubst.eq_3]

/-- On a format string with exactly one `%s` slot, `Sprintf` applied to
two copies of an argument (as `hasServiceUserAccess` does) produces the
spec-side substitution of the first copy followed by the `%!(EXTRA ...)`
marker holding the second copy. -/
theorem sprintfChars_one_slot (f : List Char) :
    ∀ (a b : String), fmt.slots f = 1 →
      fmt.sprintfChars f [a, b] =
        fmt.specTemplateSubst f a ++ fmt.extraPart [b] := by
  induction f using fmt.slots.induct with
  | case1 rest ih =>
    intro a b h
    rw [fmt.slots.eq_1] at h
    have h0 : fmt.slots rest = 0 := by omega
    rw [fmt.sprintfChars.eq_2, sprintfChars_no_slot rest [b] h0,
      fmt.specTemplateSubst.eq_1, specTemplateSubst_no_slot rest a h0,
      List.append_assoc]
  | case2 head rest hcond ih =>
    intro a b h
    rw [fmt.slots.eq_2 head rest hcond] at h
    rw [fmt.sprintfChars.eq_4 [a, b] head rest
      (fun rest1 a1 as hc hr _ => hcond rest1 hc hr)
      (fun rest1 hc hr _ => hcond rest1 hc hr)]
    rw [fmt.specTemplateSubst.eq_2 a head rest hcond, ih a b h,
      List.cons_append]
  | case3 =>
    intro a b h
    exact absurd h (by simp [fmt.slots])

/-- C3 counterexample: the one-slot template `x-%s` with team ID `t`.
The spec-side substitution of the single slot yields `x-t`, yet the
code's check rejects the username `x-t`: the code instantiates the
template by `fmt.Sprintf(template, teamID, teamID)`, whose surplus
second argument appends `%!(EXTRA string=t)` to the instantiated
template, so the string compared against the username is
`x-t%!(EXTRA string=t)`, not `x-t`. -/
theorem service_template_one_slot_counterexample :
    fmt.slots "x-%s".data = 1 ∧
    "x-t".data = fmt.specTemplateSubst "x-%s".data "t" ∧
    tobac.hasServiceUserAccess "x-t" "t" ["x-%s"] = false ∧
    fmt.Sprintf "x-%s" ["t", "t"] = "x-t%!(EXTRA string=t)" := by decide

/-- C3 (amended): for every configured template that is a format string
with exactly one `%s` substitution slot (and no other verb), every team
internal ID, and every username, the service-user access check against
that template succeeds if and only if the username is exactly equal to
the template with its single slot replaced by the team's internal ID
followed by the marker `%!(EXTRA string=<teamID>)` that Go appends for
the surplus second `Sprintf` argument — exact string equality, no
wildcard or prefix matching. -/
theorem service_template_exact_match (template username teamID : String)
    (hwf : fmt.onlyStringVerbs template.data = true)
    (hone : fmt.slots template.data = 1) :
    tobac.hasServiceUserAccess username teamID [template] = true ↔
      username.data = fmt.specTemplateSubst template.data teamID
        ++ "%!(EXTRA string=".data ++ teamID.data ++ ")".data := by
  have hinst : fmt.sprintfChars template.data [teamID, teamID] =
      fmt.specTemplateSubst template.data teamID ++ fmt.extraPart [teamID] :=
    sprintfChars_one_slot template.data teamID teamID hone
  have hextra : fmt.extraPart [teamID] =
      "%!(EXTRA string=".data ++ teamID.data ++ ")".data := by
    simp [fmt.extraPart, fmt.extraElems]
  simp only [tobac.hasServiceUserAccess, List.any_cons, List.any_nil,
    Bool.or_false, beq_iff_eq, fmt.Sprintf, hinst, hextra]
  rw [String.ext_iff]
  simp [List.append_assoc]

/-- Witness for the amended C3: the username carrying the
`%!(EXTRA ...)` marker is exactly the one the check accepts. -/
theorem service_template_exact_match_witness :
    tobac.hasServiceUserAccess "x-t%!(EXTRA string=t)" "t" ["x-%s"] = true :=
  (service_template_exact_match "x-%s" "x-t%!(EXTRA string=t)" "t"
    (by decide) (by decide)).mpr (by decide)
